import Mathlib

/-!
# Collaborator interfaces of the gateway model package

A verification development over `gateway/model/types.go`.

The file declares the narrow capability interfaces through which the gateway
modules (crud, auth, schema, syncman, eventing, ...) consume one another, and
the `PostProcess` value types.  The declarations are embedded twice:

* as data (`GoType`, `Method`, `Interface`, `StructDecl`): every interface is
  the list of its method declarations, in source order, with the parameter and
  result types of each method, so that statements about which operations an
  interface offers and about Go's structural interface satisfaction are
  decidable;
* as values (`GoValue`): the values of the struct types `PostProcess` and
  `PostProcessAction` are typed against their declarations, a slice is either
  nil or a sequence of elements, and equality of values is Go's
  `reflect.DeepEqual`, the only equality Go offers for a struct that holds a
  slice.
-/

namespace Model

/-! ## Go types occurring in the declarations -/

/-- The Go types that occur in `types.go`.  Types declared elsewhere in the
package or imported from another package are kept by their qualified name. -/
inductive GoType where
  /-- A value of `context.Context`. -/
  | context
  /-- The predeclared `string`. -/
  | string
  /-- The predeclared `int`. -/
  | int
  /-- The predeclared `bool`. -/
  | bool
  /-- The predeclared `error`. -/
  | error
  /-- The empty interface `interface{}`. -/
  | emptyInterface
  /-- A named type, e.g. `ReadRequest`, `config.Crud`, `utils.DBType`. -/
  | named (name : String)
  /-- A pointer type `*T`. -/
  | pointer (elem : GoType)
  /-- A slice type `[]T`. -/
  | slice (elem : GoType)
  /-- A map type `map[K]V`. -/
  | map (key value : GoType)
  deriving DecidableEq, Repr

/-- The type `map[string]interface{}`. -/
def GoType.stringMap : GoType := .map .string .emptyInterface

/-- A parameter (or named result) of a method: its name as written in the
source (empty for an unnamed result) and its type. -/
structure Param where
  name : String
  type : GoType
  deriving DecidableEq, Repr

/-- A method declaration of an interface. -/
structure Method where
  name : String
  params : List Param
  results : List Param
  deriving DecidableEq, Repr

/-- The signature of a method: the types of its parameters and of its results,
in order.  Go identifies signatures up to parameter and result names. -/
def Method.signature (m : Method) : List GoType × List GoType :=
  (m.params.map Param.type, m.results.map Param.type)

/-- An interface type: its name and its methods in source order. -/
structure Interface where
  name : String
  methods : List Method
  deriving DecidableEq, Repr

/-- The names of the operations an interface declares, in source order. -/
def Interface.methodNames (i : Interface) : List String :=
  i.methods.map Method.name

/-- The signature of the method called `n` in a method list, if there is one. -/
def signatureOf (ms : List Method) (n : String) : Option (List GoType × List GoType) :=
  (ms.find? (fun m => m.name == n)).map Method.signature

/-- Whether the interface declares every operation of the list `ns`. -/
def Interface.offers (i : Interface) (ns : List String) : Bool :=
  ns.all (fun n => i.methodNames.contains n)

/-- Whether a method set `ms` contains a method with the name and the signature
of `m`. -/
def hasMethod (ms : List Method) (m : Method) : Bool :=
  ms.any (fun k => k.name == m.name && k.signature == m.signature)

/-- Go's interface satisfaction: a type with method set `ms` implements the
interface `i` when every method of `i` is in `ms` with an identical
signature. -/
def implements (ms : List Method) (i : Interface) : Bool :=
  i.methods.all (fun m => hasMethod ms m)

/-- A struct field declaration. -/
structure Field where
  name : String
  type : GoType
  deriving DecidableEq, Repr

/-- A struct type declaration: its name and its fields in source order. -/
structure StructDecl where
  name : String
  fields : List Field
  deriving DecidableEq, Repr

/-! ## The interface declarations of `types.go` -/

/-- Shorthand for an unnamed result of type `t`. -/
def res (t : GoType) : Param := ⟨"", t⟩

/-- The declaration `GraphQLCrudInterface` (types.go:12-21). -/
def GraphQLCrudInterface : Interface :=
  { name := "GraphQLCrudInterface"
    methods := [
      { name := "Create"
        params := [⟨"ctx", .context⟩, ⟨"dbAlias", .string⟩, ⟨"collection", .string⟩,
                   ⟨"request", .pointer (.named "CreateRequest")⟩]
        results := [res .error] },
      { name := "Read"
        params := [⟨"ctx", .context⟩, ⟨"dbAlias", .string⟩, ⟨"collection", .string⟩,
                   ⟨"request", .pointer (.named "ReadRequest")⟩]
        results := [res .emptyInterface, res .error] },
      { name := "Update"
        params := [⟨"ctx", .context⟩, ⟨"dbAlias", .string⟩, ⟨"collection", .string⟩,
                   ⟨"request", .pointer (.named "UpdateRequest")⟩]
        results := [res .error] },
      { name := "Delete"
        params := [⟨"ctx", .context⟩, ⟨"dbAlias", .string⟩, ⟨"collection", .string⟩,
                   ⟨"request", .pointer (.named "DeleteRequest")⟩]
        results := [res .error] },
      { name := "Batch"
        params := [⟨"ctx", .context⟩, ⟨"dbAlias", .string⟩,
                   ⟨"req", .pointer (.named "BatchRequest")⟩]
        results := [res .error] },
      { name := "GetDBType"
        params := [⟨"dbAlias", .string⟩]
        results := [res .string, res .error] },
      { name := "IsPreparedQueryPresent"
        params := [⟨"directive", .string⟩, ⟨"fieldName", .string⟩]
        results := [res .bool] },
      { name := "ExecPreparedQuery"
        params := [⟨"ctx", .context⟩, ⟨"dbAlias", .string⟩, ⟨"id", .string⟩,
                   ⟨"req", .pointer (.named "PreparedQueryRequest")⟩,
                   ⟨"auth", .stringMap⟩]
        results := [res .emptyInterface, res .error] } ] }

/-- The declaration `CrudAuthInterface` (types.go:54-56). -/
def CrudAuthInterface : Interface :=
  { name := "CrudAuthInterface"
    methods := [
      { name := "Read"
        params := [⟨"ctx", .context⟩, ⟨"dbAlias", .string⟩, ⟨"col", .string⟩,
                   ⟨"req", .pointer (.named "ReadRequest")⟩]
        results := [res .emptyInterface, res .error] } ] }

/-- The declaration `CrudEventingInterface` (types.go:67-71). -/
def CrudEventingInterface : Interface :=
  { name := "CrudEventingInterface"
    methods := [
      { name := "InternalCreate"
        params := [⟨"ctx", .context⟩, ⟨"dbAlias", .string⟩, ⟨"project", .string⟩,
                   ⟨"col", .string⟩, ⟨"req", .pointer (.named "CreateRequest")⟩,
                   ⟨"isIgnoreMetrics", .bool⟩]
        results := [res .error] },
      { name := "InternalUpdate"
        params := [⟨"ctx", .context⟩, ⟨"dbAlias", .string⟩, ⟨"project", .string⟩,
                   ⟨"col", .string⟩, ⟨"req", .pointer (.named "UpdateRequest")⟩]
        results := [res .error] },
      { name := "Read"
        params := [⟨"ctx", .context⟩, ⟨"dbAlias", .string⟩, ⟨"col", .string⟩,
                   ⟨"req", .pointer (.named "ReadRequest")⟩]
        results := [res .emptyInterface, res .error] } ] }

/-- The declaration `AuthEventingInterface` (types.go:74-78). -/
def AuthEventingInterface : Interface :=
  { name := "AuthEventingInterface"
    methods := [
      { name := "GetInternalAccessToken"
        params := []
        results := [res .string, res .error] },
      { name := "GetSCAccessToken"
        params := []
        results := [res .string, res .error] },
      { name := "IsEventingOpAuthorised"
        params := [⟨"ctx", .context⟩, ⟨"project", .string⟩, ⟨"token", .string⟩,
                   ⟨"event", .pointer (.named "QueueEventRequest")⟩]
        results := [res .error] } ] }

/-- The declaration `CrudRealtimeInterface` (types.go:110-112). -/
def CrudRealtimeInterface : Interface :=
  { name := "CrudRealtimeInterface"
    methods := [
      { name := "Read"
        params := [⟨"ctx", .context⟩, ⟨"dbAlias", .string⟩, ⟨"col", .string⟩,
                   ⟨"req", .pointer (.named "ReadRequest")⟩]
        results := [res .emptyInterface, res .error] } ] }

/-- The declaration `CrudUserInterface` (types.go:123-128). -/
def CrudUserInterface : Interface :=
  { name := "CrudUserInterface"
    methods := [
      { name := "GetDBType"
        params := [⟨"dbAlias", .string⟩]
        results := [res .string, res .error] },
      { name := "Read"
        params := [⟨"ctx", .context⟩, ⟨"dbAlias", .string⟩, ⟨"col", .string⟩,
                   ⟨"req", .pointer (.named "ReadRequest")⟩]
        results := [res .emptyInterface, res .error] },
      { name := "Create"
        params := [⟨"ctx", .context⟩, ⟨"dbAlias", .string⟩, ⟨"col", .string⟩,
                   ⟨"req", .pointer (.named "CreateRequest")⟩]
        results := [res .error] },
      { name := "Update"
        params := [⟨"ctx", .context⟩, ⟨"dbAlias", .string⟩, ⟨"col", .string⟩,
                   ⟨"req", .pointer (.named "UpdateRequest")⟩]
        results := [res .error] } ] }

/-- The declaration `SyncmanEventingInterface` (types.go:139-146). -/
def SyncmanEventingInterface : Interface :=
  { name := "SyncmanEventingInterface"
    methods := [
      { name := "GetAssignedSpaceCloudURL"
        params := [⟨"ctx", .context⟩, ⟨"project", .string⟩, ⟨"token", .int⟩]
        results := [res .string, res .error] },
      { name := "GetAssignedTokens"
        params := []
        results := [⟨"start", .int⟩, ⟨"end", .int⟩] },
      { name := "GetEventSource"
        params := []
        results := [res .string] },
      { name := "GetSpaceCloudURLFromID"
        params := [⟨"nodeID", .string⟩]
        results := [res .string, res .error] },
      { name := "GetNodeID"
        params := []
        results := [res .string] },
      { name := "MakeHTTPRequest"
        params := [⟨"ctx", .context⟩, ⟨"method", .string⟩, ⟨"url", .string⟩,
                   ⟨"token", .string⟩, ⟨"scToken", .string⟩,
                   ⟨"params", .emptyInterface⟩, ⟨"vPtr", .emptyInterface⟩]
        results := [res .error] } ] }

/-! ## The value types of `types.go` -/

/-- The declaration `PostProcess` (types.go:159-161). -/
def PostProcessDecl : StructDecl :=
  { name := "PostProcess"
    fields := [⟨"PostProcessAction", .slice (.named "PostProcessAction")⟩] }

/-- The declaration `PostProcessAction` (types.go:164-168). -/
def PostProcessActionDecl : StructDecl :=
  { name := "PostProcessAction"
    fields := [⟨"Action", .string⟩, ⟨"Field", .string⟩, ⟨"Value", .emptyInterface⟩] }

/-- The struct declarations against which values are typed. -/
def structDecls : List StructDecl := [PostProcessDecl, PostProcessActionDecl]

/-- The struct declaration called `n`, if there is one. -/
def lookupStruct (decls : List StructDecl) (n : String) : Option StructDecl :=
  decls.find? (fun d => d.name == n)

/-- Go values of the types that occur in the struct declarations.  `V` is the
type of the dynamic values an `interface{}` can hold.  A slice is nil or
non-nil, and a non-nil slice may be empty: Go tells the two apart. -/
inductive GoValue (V : Type) where
  /-- A value of type `string`. -/
  | string (s : String)
  /-- A value of type `interface{}` holding the dynamic value `dyn`. -/
  | iface (dyn : V)
  /-- The nil slice. -/
  | nilSlice
  /-- A non-nil slice with its elements in order. -/
  | slice (elems : List (GoValue V))
  /-- A value of the struct type `name` with its field values in declaration
  order. -/
  | struct (name : String) (fields : List (GoValue V))

mutual
/-- Whether a value has the given Go type under the struct declarations. -/
def hasType {V : Type} (decls : List StructDecl) : GoValue V → GoType → Bool
  | .string _, .string => true
  | .iface _, .emptyInterface => true
  | .nilSlice, .slice _ => true
  | .slice elems, .slice t => allHaveType decls elems t
  | .struct n fields, .named m =>
    n == m &&
      match lookupStruct decls n with
      | some d => fieldsHaveTypes decls fields (d.fields.map Field.type)
      | none => false
  | _, _ => false
/-- Whether every element of a slice has the element type. -/
def allHaveType {V : Type} (decls : List StructDecl) : List (GoValue V) → GoType → Bool
  | [], _ => true
  | v :: vs, t => hasType decls v t && allHaveType decls vs t
/-- Whether the field values of a struct have the declared field types, one
value per declared field. -/
def fieldsHaveTypes {V : Type} (decls : List StructDecl) :
    List (GoValue V) → List GoType → Bool
  | [], [] => true
  | v :: vs, t :: ts => hasType decls v t && fieldsHaveTypes decls vs ts
  | _, _ => false
end

/-- The comparison `reflect.DeepEqual` makes between the dynamic values two
interfaces hold.  The value model has no addresses: DeepEqual answers true for
two slices that share their backing array without looking at the elements, and
that agrees with the element-by-element comparison exactly when a dynamic
value is deeply equal to itself, which `refl` records (every value but one
that contains a NaN float or a non-nil func). -/
structure DynEq (V : Type) where
  eq : V → V → Bool
  refl : ∀ v, eq v v = true

mutual
/-- Go's `reflect.DeepEqual` on values of one type: strings are equal when
`==`, interface values when their dynamic values are deeply equal, slices when
both are nil or both are non-nil with the same length and deeply equal
corresponding elements, structs when their corresponding fields are deeply
equal. -/
def deepEqual {V : Type} (eq : V → V → Bool) : GoValue V → GoValue V → Bool
  | .string s, .string t => s == t
  | .iface v, .iface w => eq v w
  | .nilSlice, .nilSlice => true
  | .slice xs, .slice ys => deepEqualAll eq xs ys
  | .struct n fs, .struct m gs => n == m && deepEqualAll eq fs gs
  | _, _ => false
/-- DeepEqual on two sequences: same length and deeply equal corresponding
elements. -/
def deepEqualAll {V : Type} (eq : V → V → Bool) : List (GoValue V) → List (GoValue V) → Bool
  | [], [] => true
  | x :: xs, y :: ys => deepEqual eq x y && deepEqualAll eq xs ys
  | _, _ => false
end

/-- A Go slice with elements of type `α`: nil, or non-nil with its elements. -/
inductive Slice (α : Type) where
  | nil
  | elems (xs : List α)

/-- The elements of a slice in order; the nil slice has none. -/
def Slice.toList {α : Type} : Slice α → List α
  | .nil => []
  | .elems xs => xs

/-- Two slices are both nil, or both non-nil of the same length with
corresponding elements related by `R`. -/
def Slice.Rel {α : Type} (R : α → α → Prop) : Slice α → Slice α → Prop
  | .nil, .nil => True
  | .elems xs, .elems ys => List.Forall₂ R xs ys
  | _, _ => False

/-- PostProcessAction is struct of Action Field Value.  The dynamic value held
by the `interface{}` field `Value` ranges over `V`. -/
structure PostProcessAction (V : Type) where
  Action : String
  Field : String
  Value : V

/-- PostProcess filters the schema.  Its one field is a slice of
`PostProcessAction`. -/
structure PostProcess (V : Type) where
  PostProcessAction : Slice (PostProcessAction V)

/-- The Go value of a `PostProcessAction`. -/
def PostProcessAction.toValue {V : Type} (a : PostProcessAction V) : GoValue V :=
  .struct "PostProcessAction" [.string a.Action, .string a.Field, .iface a.Value]

/-- The Go value of a `PostProcess`. -/
def PostProcess.toValue {V : Type} (p : PostProcess V) : GoValue V :=
  .struct "PostProcess"
    [match p.PostProcessAction with
     | .nil => .nilSlice
     | .elems xs => .slice (xs.map PostProcessAction.toValue)]

/-- Two actions agree on Action and Field and hold deeply equal Values. -/
def PostProcessAction.Agree {V : Type} (E : DynEq V) (a b : PostProcessAction V) : Prop :=
  a.Action = b.Action ∧ a.Field = b.Field ∧ E.eq a.Value b.Value = true

/-- Deep equality of dynamic values that are texts: `==` on strings. -/
def textDynEq : DynEq String :=
  { eq := fun a b => a == b
    refl := fun v => by simp }

/-- The value `PostProcess{}`: the action slice is nil. -/
def zeroPostProcess : PostProcess String := ⟨.nil⟩

/-- The value `PostProcess{PostProcessAction: []PostProcessAction{}}`: the
action slice is non-nil and empty. -/
def emptyPostProcess : PostProcess String := ⟨.elems []⟩

/-- A `PostProcess` that removes the field `password`. -/
def removePassword : PostProcess String :=
  ⟨.elems [{ Action := "remove", Field := "res.password", Value := "" }]⟩

end Model

/-! ## Theorems about the declarations of `types.go` -/

namespace Model

/-- Boolean method containment unfolded: `hasMethod ms m` holds exactly when
some method of `ms` has the name and the signature of `m`. -/
theorem hasMethod_iff (ms : List Method) (m : Method) :
    hasMethod ms m = true ↔ ∃ k ∈ ms, k.name = m.name ∧ k.signature = m.signature := by
  simp [hasMethod, List.any_eq_true]

/-- Interface satisfaction unfolded to its method-by-method meaning. -/
theorem implements_iff (ms : List Method) (i : Interface) :
    implements ms i = true ↔
      ∀ m ∈ i.methods, ∃ k ∈ ms, k.name = m.name ∧ k.signature = m.signature := by
  simp [implements, List.all_eq_true, hasMethod_iff]

/-- Interface satisfaction is transitive through an interface's own method
set: a type that implements `j` implements every interface that `j`, taken as
a type, implements. -/
theorem implements_trans (ms : List Method) (j i : Interface)
    (hj : implements ms j = true) (hi : implements j.methods i = true) :
    implements ms i = true := by
  rw [implements_iff] at hj hi ⊢
  intro m hm
  obtain ⟨k, hk, hkn, hks⟩ := hi m hm
  obtain ⟨k2, hk2, hk2n, hk2s⟩ := hj k hk
  exact ⟨k2, hk2, hk2n.trans hkn, hk2s.trans hks⟩

/-- C6 (as stated, refuted): `CrudEventingInterface` does not offer the seven
operations Create, Read, Update, Delete, Batch, InternalCreate and
InternalUpdate; it has no method called Create, Update, Delete or Batch. -/
theorem crudEventing_lacks_public_crud :
    CrudEventingInterface.offers
        ["Create", "Read", "Update", "Delete", "Batch", "InternalCreate", "InternalUpdate"]
      = false ∧
    signatureOf CrudEventingInterface.methods "Create" = none ∧
    signatureOf CrudEventingInterface.methods "Update" = none ∧
    signatureOf CrudEventingInterface.methods "Delete" = none ∧
    signatureOf CrudEventingInterface.methods "Batch" = none := by
  decide

/-- C6 (amended): the operations of `CrudEventingInterface` are exactly
InternalCreate, InternalUpdate and Read, with the signatures of the source;
Create, Read, Update, Delete and Batch are the operations offered by
`GraphQLCrudInterface`, which in turn has neither InternalCreate nor
InternalUpdate. -/
theorem crudEventing_operations :
    CrudEventingInterface.methodNames = ["InternalCreate", "InternalUpdate", "Read"] ∧
    signatureOf CrudEventingInterface.methods "InternalCreate" =
      some ([.context, .string, .string, .string, .pointer (.named "CreateRequest"), .bool],
            [.error]) ∧
    signatureOf CrudEventingInterface.methods "InternalUpdate" =
      some ([.context, .string, .string, .string, .pointer (.named "UpdateRequest")],
            [.error]) ∧
    signatureOf CrudEventingInterface.methods "Read" =
      some ([.context, .string, .string, .pointer (.named "ReadRequest")],
            [.emptyInterface, .error]) ∧
    GraphQLCrudInterface.offers ["Create", "Read", "Update", "Delete", "Batch"] = true ∧
    GraphQLCrudInterface.offers ["InternalCreate"] = false ∧
    GraphQLCrudInterface.offers ["InternalUpdate"] = false := by
  decide

/-- C7: `SyncmanEventingInterface` declares GetAssignedTokens with no
parameter and two `int` results, GetAssignedSpaceCloudURL taking
(ctx, project string, token int) and returning (string, error),
GetSpaceCloudURLFromID taking a string and returning (string, error),
GetNodeID returning a string, and MakeHTTPRequest taking
(ctx, method, url, token, scToken string, params, vPtr interface{}) and
returning only an error. -/
theorem syncmanEventing_signatures :
    signatureOf SyncmanEventingInterface.methods "GetAssignedTokens" =
      some ([], [.int, .int]) ∧
    signatureOf SyncmanEventingInterface.methods "GetAssignedSpaceCloudURL" =
      some ([.context, .string, .int], [.string, .error]) ∧
    signatureOf SyncmanEventingInterface.methods "GetSpaceCloudURLFromID" =
      some ([.string], [.string, .error]) ∧
    signatureOf SyncmanEventingInterface.methods "GetNodeID" =
      some ([], [.string]) ∧
    signatureOf SyncmanEventingInterface.methods "MakeHTTPRequest" =
      some ([.context, .string, .string, .string, .string, .emptyInterface, .emptyInterface],
            [.error]) := by
  decide

/-- C8: `AuthEventingInterface` consists of exactly GetInternalAccessToken,
GetSCAccessToken and IsEventingOpAuthorised; the first two take no argument
and return (string, error); IsEventingOpAuthorised takes
(ctx, project, token string, event *QueueEventRequest) and its only result is
an error, so it returns no `*PostProcess` and no other data. -/
theorem authEventing_signatures :
    AuthEventingInterface.methodNames =
      ["GetInternalAccessToken", "GetSCAccessToken", "IsEventingOpAuthorised"] ∧
    signatureOf AuthEventingInterface.methods "GetInternalAccessToken" =
      some ([], [.string, .error]) ∧
    signatureOf AuthEventingInterface.methods "GetSCAccessToken" =
      some ([], [.string, .error]) ∧
    signatureOf AuthEventingInterface.methods "IsEventingOpAuthorised" =
      some ([.context, .string, .string, .pointer (.named "QueueEventRequest")],
            [.error]) ∧
    ((signatureOf AuthEventingInterface.methods "IsEventingOpAuthorised").map
        (fun s => s.2.contains (.pointer (.named "PostProcess")))) = some false := by
  decide

/-- A value of the declared type `PostProcessAction` is a triple: the Go
value of some `PostProcessAction`. -/
theorem action_of_hasType {V : Type} (v : GoValue V)
    (h : hasType structDecls v (.named "PostProcessAction") = true) :
    ∃ a : PostProcessAction V, v = a.toValue := by
  cases v with
  | string s => simp [hasType] at h
  | iface d => simp [hasType] at h
  | nilSlice => simp [hasType] at h
  | slice xs => simp [hasType] at h
  | struct n fs =>
    simp only [hasType, Bool.and_eq_true, beq_iff_eq] at h
    obtain ⟨hn, hf⟩ := h
    subst hn
    have hl : lookupStruct structDecls "PostProcessAction" = some PostProcessActionDecl := by
      decide
    rw [hl] at hf
    simp only [PostProcessActionDecl, List.map] at hf
    match fs, hf with
    | [.string a, .string f, .iface d], _ => exact ⟨⟨a, f, d⟩, rfl⟩

/-- A slice whose elements have the declared type `PostProcessAction` is a
sequence of triples. -/
theorem actions_of_allHaveType {V : Type} (vs : List (GoValue V))
    (h : allHaveType structDecls vs (.named "PostProcessAction") = true) :
    ∃ xs : List (PostProcessAction V), vs = xs.map PostProcessAction.toValue := by
  induction vs with
  | nil => exact ⟨[], rfl⟩
  | cons v vs ih =>
    simp only [allHaveType, Bool.and_eq_true] at h
    obtain ⟨a, ha⟩ := action_of_hasType v h.1
    obtain ⟨xs, hxs⟩ := ih h.2
    exact ⟨a :: xs, by rw [ha, hxs]; rfl⟩

/-- A value of the declared type `PostProcess` is the Go value of some
`PostProcess`: a nil or non-nil slice of triples. -/
theorem postProcess_of_hasType {V : Type} (v : GoValue V)
    (h : hasType structDecls v (.named "PostProcess") = true) :
    ∃ p : PostProcess V, v = p.toValue := by
  cases v with
  | string s => simp [hasType] at h
  | iface d => simp [hasType] at h
  | nilSlice => simp [hasType] at h
  | slice xs => simp [hasType] at h
  | struct n fs =>
    simp only [hasType, Bool.and_eq_true, beq_iff_eq] at h
    obtain ⟨hn, hf⟩ := h
    subst hn
    have hl : lookupStruct structDecls "PostProcess" = some PostProcessDecl := by decide
    rw [hl] at hf
    simp only [PostProcessDecl, List.map] at hf
    match fs, hf with
    | [.nilSlice], _ => exact ⟨⟨.nil⟩, rfl⟩
    | [.slice vs], hf =>
      simp only [fieldsHaveTypes, hasType, Bool.and_true] at hf
      obtain ⟨xs, hxs⟩ := actions_of_allHaveType vs hf
      exact ⟨⟨.elems xs⟩, by rw [hxs]; rfl⟩
    | .slice _ :: _ :: _, hf => simp [fieldsHaveTypes] at hf

/-- The Go value of every `PostProcessAction` has the declared type. -/
theorem hasType_action {V : Type} (a : PostProcessAction V) :
    hasType structDecls a.toValue (.named "PostProcessAction") = true := by
  have hl : lookupStruct structDecls "PostProcessAction" = some PostProcessActionDecl := by
    decide
  simp [PostProcessAction.toValue, hasType, hl, PostProcessActionDecl, fieldsHaveTypes]

/-- The Go value of every `PostProcess` has the declared type. -/
theorem hasType_postProcess {V : Type} (p : PostProcess V) :
    hasType structDecls p.toValue (.named "PostProcess") = true := by
  have hl : lookupStruct structDecls "PostProcess" = some PostProcessDecl := by decide
  have hall : ∀ xs : List (PostProcessAction V),
      allHaveType structDecls (xs.map PostProcessAction.toValue)
        (.named "PostProcessAction") = true := by
    intro xs
    induction xs with
    | nil => rfl
    | cons x xs ih => simp [allHaveType, hasType_action, ih]
  obtain ⟨s⟩ := p
  cases s with
  | nil => simp [PostProcess.toValue, hasType, hl, PostProcessDecl, fieldsHaveTypes]
  | elems xs =>
    simp [PostProcess.toValue, hasType, hl, PostProcessDecl, fieldsHaveTypes, hall]

/-- DeepEqual on two actions compares Action, Field and Value. -/
theorem deepEqual_action {V : Type} (E : DynEq V) (a b : PostProcessAction V) :
    deepEqual E.eq a.toValue b.toValue = true ↔ PostProcessAction.Agree E a b := by
  simp [PostProcessAction.toValue, deepEqual, deepEqualAll, PostProcessAction.Agree, and_assoc]

/-- DeepEqual on two sequences of actions: same length and agreeing
corresponding actions. -/
theorem deepEqualAll_actions {V : Type} (E : DynEq V) (xs ys : List (PostProcessAction V)) :
    deepEqualAll E.eq (xs.map PostProcessAction.toValue) (ys.map PostProcessAction.toValue)
        = true ↔
      List.Forall₂ (PostProcessAction.Agree E) xs ys := by
  induction xs generalizing ys with
  | nil =>
    cases ys with
    | nil => simp [deepEqualAll]
    | cons y ys => simp [deepEqualAll]
  | cons x xs ih =>
    cases ys with
    | nil => simp [deepEqualAll]
    | cons y ys =>
      simp only [List.map_cons, deepEqualAll, Bool.and_eq_true, List.forall₂_cons,
        deepEqual_action, ih]

/-- DeepEqual on two `PostProcess` values: both action slices nil, or both
non-nil of the same length with agreeing corresponding actions. -/
theorem deepEqual_postProcess {V : Type} (E : DynEq V) (p q : PostProcess V) :
    deepEqual E.eq p.toValue q.toValue = true ↔
      Slice.Rel (PostProcessAction.Agree E) p.PostProcessAction q.PostProcessAction := by
  obtain ⟨s⟩ := p
  obtain ⟨t⟩ := q
  cases s with
  | nil =>
    cases t with
    | nil => simp [PostProcess.toValue, deepEqual, deepEqualAll, Slice.Rel]
    | elems ys => simp [PostProcess.toValue, deepEqual, deepEqualAll, Slice.Rel]
  | elems xs =>
    cases t with
    | nil => simp [PostProcess.toValue, deepEqual, deepEqualAll, Slice.Rel]
    | elems ys =>
      simp [PostProcess.toValue, deepEqual, deepEqualAll, Slice.Rel, deepEqualAll_actions]

/-- Every `PostProcess` value is deeply equal to itself, as DeepEqual answers
for a value compared with itself. -/
theorem deepEqual_self {V : Type} (E : DynEq V) (p : PostProcess V) :
    deepEqual E.eq p.toValue p.toValue = true := by
  rw [deepEqual_postProcess]
  obtain ⟨s⟩ := p
  cases s with
  | nil => trivial
  | elems xs =>
    simp only [Slice.Rel, List.forall₂_same]
    intro a _
    exact ⟨rfl, rfl, E.refl a.Value⟩

/-- C9 (as stated, refuted): `PostProcess{}` and
`PostProcess{PostProcessAction: []PostProcessAction{}}` are both values of the
declared type and their lists of triples are the same (both have no element),
yet they are not deeply equal: one slice is nil and the other is not. -/
theorem nil_and_empty_not_deepEqual :
    hasType structDecls zeroPostProcess.toValue (.named "PostProcess") = true ∧
    hasType structDecls emptyPostProcess.toValue (.named "PostProcess") = true ∧
    zeroPostProcess.PostProcessAction.toList = emptyPostProcess.PostProcessAction.toList ∧
    List.Forall₂ (PostProcessAction.Agree textDynEq)
      zeroPostProcess.PostProcessAction.toList emptyPostProcess.PostProcessAction.toList ∧
    deepEqual textDynEq.eq zeroPostProcess.toValue emptyPostProcess.toValue = false :=
  ⟨by decide, by decide, rfl, List.Forall₂.nil, by decide⟩

/-- C9 (amended): the `PostProcess` declaration has the single field
`PostProcessAction []PostProcessAction` and the `PostProcessAction`
declaration exactly the fields `Action string`, `Field string`,
`Value interface{}`; every value of the declared type `PostProcess` is a nil
or non-nil slice of such triples, every such slice of triples is a value of
the type, and two values are deeply equal if and only if their slices are both
nil or both non-nil, of the same length, and agree element by element on
Action, Field and (deeply) Value. -/
theorem postProcess_deepEqual_iff {V : Type} (E : DynEq V) (v w : GoValue V)
    (r : PostProcess V)
    (hv : hasType structDecls v (.named "PostProcess") = true)
    (hw : hasType structDecls w (.named "PostProcess") = true) :
    PostProcessDecl.fields = [⟨"PostProcessAction", .slice (.named "PostProcessAction")⟩] ∧
    PostProcessActionDecl.fields =
      [⟨"Action", .string⟩, ⟨"Field", .string⟩, ⟨"Value", .emptyInterface⟩] ∧
    hasType structDecls r.toValue (.named "PostProcess") = true ∧
    ∃ p q : PostProcess V, v = p.toValue ∧ w = q.toValue ∧
      (deepEqual E.eq v w = true ↔
        Slice.Rel (PostProcessAction.Agree E) p.PostProcessAction q.PostProcessAction) := by
  obtain ⟨p, hp⟩ := postProcess_of_hasType v hv
  obtain ⟨q, hq⟩ := postProcess_of_hasType w hw
  refine ⟨rfl, rfl, hasType_postProcess r, p, q, hp, hq, ?_⟩
  rw [hp, hq]
  exact deepEqual_postProcess E p q

/-- Witness for C9 (amended) at the value that removes the field `password`,
compared with the zero value `PostProcess{}`. -/
theorem postProcess_deepEqual_iff_witness :
    hasType structDecls removePassword.toValue (.named "PostProcess") = true ∧
    hasType structDecls zeroPostProcess.toValue (.named "PostProcess") = true ∧
    ∃ p q : PostProcess String,
      removePassword.toValue = p.toValue ∧ zeroPostProcess.toValue = q.toValue ∧
      (deepEqual textDynEq.eq removePassword.toValue zeroPostProcess.toValue = true ↔
        Slice.Rel (PostProcessAction.Agree textDynEq) p.PostProcessAction
          q.PostProcessAction) :=
  ⟨by decide, by decide,
   (postProcess_deepEqual_iff textDynEq removePassword.toValue zeroPostProcess.toValue
      emptyPostProcess (by decide) (by decide)).2.2.2⟩

/-- C10: every type whose method set implements `GraphQLCrudInterface` also
implements `CrudAuthInterface`, `CrudRealtimeInterface` and
`CrudUserInterface`, whose operations (Read; Read; GetDBType, Read, Create,
Update) each occur in `GraphQLCrudInterface` with identical parameter and
result types; it need not implement `CrudEventingInterface`, because
`GraphQLCrudInterface` itself does not: it has no method InternalCreate and
no method InternalUpdate. -/
theorem graphQLCrud_subsumption (ms : List Method)
    (h : implements ms GraphQLCrudInterface = true) :
    implements ms CrudAuthInterface = true ∧
    implements ms CrudRealtimeInterface = true ∧
    implements ms CrudUserInterface = true ∧
    (CrudAuthInterface.methods ++ CrudRealtimeInterface.methods ++
        CrudUserInterface.methods).all
      (fun m => signatureOf GraphQLCrudInterface.methods m.name == some m.signature) = true ∧
    (CrudAuthInterface.methodNames, CrudRealtimeInterface.methodNames,
        CrudUserInterface.methodNames) =
      (["Read"], ["Read"], ["GetDBType", "Read", "Create", "Update"]) ∧
    (∃ other : List Method,
      implements other GraphQLCrudInterface = true ∧
      implements other CrudEventingInterface = false) ∧
    signatureOf GraphQLCrudInterface.methods "InternalCreate" = none ∧
    signatureOf GraphQLCrudInterface.methods "InternalUpdate" = none := by
  refine ⟨?_, ?_, ?_, ?_, ?_, ?_, ?_, ?_⟩
  · exact implements_trans ms GraphQLCrudInterface CrudAuthInterface h (by decide)
  · exact implements_trans ms GraphQLCrudInterface CrudRealtimeInterface h (by decide)
  · exact implements_trans ms GraphQLCrudInterface CrudUserInterface h (by decide)
  · decide
  · decide
  · exact ⟨GraphQLCrudInterface.methods, by decide, by decide⟩
  · decide
  · decide

/-- Witness for C10 at the method set of `GraphQLCrudInterface` itself. -/
theorem graphQLCrud_subsumption_witness :
    implements GraphQLCrudInterface.methods GraphQLCrudInterface = true ∧
    implements GraphQLCrudInterface.methods CrudAuthInterface = true ∧
    implements GraphQLCrudInterface.methods CrudRealtimeInterface = true ∧
    implements GraphQLCrudInterface.methods CrudUserInterface = true :=
  ⟨by decide,
   (graphQLCrud_subsumption GraphQLCrudInterface.methods (by decide)).1,
   (graphQLCrud_subsumption GraphQLCrudInterface.methods (by decide)).2.1,
   (graphQLCrud_subsumption GraphQLCrudInterface.methods (by decide)).2.2.1⟩

end Model
